import Mathlib

/-!
Shallow embedding of the spaceIndustry simulation core.

Sources embedded here:
* `src/js/utils.js`        — `Utils.Timer` (fixed-duration countdown);
* `src/js/config.js`       — the `CONFIG` constants used by the simulation;
* `src/js/planet.js`       — the `Planet` state machine (production, conquest,
  battle, ship withdrawal);
* `src/unnamed/part_009`   — the `Fleet` class (progress accumulation, arrival
  resolution, reinforcement);
* `src/js/gameEngine.js`   — `handleFleetLaunch`, `sendFleet`, `checkGameEnd`,
  `endGame`;
* `src/unnamed/part_010`   — `AIController.generatePossibleActions` and
  `AIController.calculateOptimalShipCount`.

Modelling conventions: JavaScript numbers holding ship counts are natural
numbers; times, rates and progress fractions are exact rationals (the JS code
computes with binary floats, but no claim here depends on float rounding of
the configuration constants).  DOM / SVG manipulation, debug logging and
animation state are presentation-layer effects and are omitted; every omitted
statement of the original functions only touches those.  The timer callbacks
(`completeConquest` / `completeBattle`), which in JS are closures installed at
planet construction, are invoked explicitly at the call sites where the timer
fires, preserving evaluation order.
-/

/-- Owner tag of a planet or fleet: the JS code uses the strings
'player', 'ai' and 'neutral'. -/
inductive Owner
| player
| ai
| neutral
deriving DecidableEq, Repr

/-- `Utils.Timer` from src/js/utils.js: duration, accumulated elapsed time and
an active flag.  The callback field is not stored; the firing of the callback
is reported through the returned `Bool` exactly as `update` returns it. -/
structure Timer where
  duration : ℚ
  elapsed : ℚ
  active : Bool
deriving DecidableEq, Repr

/-- `Timer.start`: activate and reset `elapsed` to 0. -/
def Timer.start (t : Timer) : Timer :=
  { t with active := true, elapsed := 0 }

/-- `Timer.stop`: deactivate, keeping `elapsed`. -/
def Timer.stop (t : Timer) : Timer :=
  { t with active := false }

/-- `Timer.update(deltaTime)`: when active, add `deltaTime` to `elapsed`; when
the accumulated `elapsed` reaches `duration` the timer deactivates and reports
`true` (in JS this is the point where the callback runs).  Inactive timers are
untouched and report `false`. -/
def Timer.update (t : Timer) (deltaTime : ℚ) : Timer × Bool :=
  if t.active = false then (t, false)
  else
    let e := t.elapsed + deltaTime
    if t.duration ≤ e then ({ t with elapsed := e, active := false }, true)
    else ({ t with elapsed := e }, false)

/-- `Timer.getProgress`. -/
def Timer.getProgress (t : Timer) : ℚ :=
  if t.active then min 1 (t.elapsed / t.duration) else 0

/-- `CONFIG.CONQUEST.NEUTRAL_TIME` (ms). -/
def NEUTRAL_TIME : ℚ := 3000

/-- `CONFIG.CONQUEST.BATTLE_TIME` (ms). -/
def BATTLE_TIME : ℚ := 1500

/-- `CONFIG.SHIP.GENERATION_BASE` (= 0.8 ships per second). -/
def GENERATION_BASE : ℚ := 4/5

/-- `CONFIG.SHIP.GENERATION_MULTIPLIER` (= 0.12 per capacity point). -/
def GENERATION_MULTIPLIER : ℚ := 3/25

/-- `CONFIG.SHIP.INITIAL_COUNT`. -/
def INITIAL_COUNT : ℕ := 10

/-- `CONFIG.getShipGenerationRate(capacity)` from src/js/config.js:
`GENERATION_BASE + capacity * GENERATION_MULTIPLIER` ships per second. -/
def getShipGenerationRate (capacity : ℕ) : ℚ :=
  GENERATION_BASE + capacity * GENERATION_MULTIPLIER

/-- The simulation-relevant fields of `Planet` from src/js/planet.js.
Position, radius, letter, selection and the SVG handles are presentation
state and are omitted.  `conqueror` and `attackingOwner` are `null` in JS
until a conquest/battle starts, hence `Option Owner` here. -/
structure Planet where
  capacity : ℕ
  ships : ℕ
  owner : Owner
  isBeingConquered : Bool
  conqueror : Option Owner
  conquestTimer : Timer
  isInBattle : Bool
  battleTimer : Timer
  attackingShips : ℕ
  attackingOwner : Option Owner
  shipGenerationRate : ℚ
  shipGenerationTimer : ℚ
deriving DecidableEq, Repr

/-- The `Planet` constructor (src/js/planet.js): a fresh planet with 0 ships,
inactive conquest timer of duration `NEUTRAL_TIME`, inactive battle timer of
duration `BATTLE_TIME`, generation rate derived from capacity. -/
def mkPlanet (capacity : ℕ) (owner : Owner) : Planet :=
  { capacity := capacity
    ships := 0
    owner := owner
    isBeingConquered := false
    conqueror := none
    conquestTimer := { duration := NEUTRAL_TIME, elapsed := 0, active := false }
    isInBattle := false
    battleTimer := { duration := BATTLE_TIME, elapsed := 0, active := false }
    attackingShips := 0
    attackingOwner := none
    shipGenerationRate := getShipGenerationRate capacity
    shipGenerationTimer := 0 }

/-- `Planet.updateShipGeneration(deltaTime)`: neutral planets and planets at
capacity do nothing; otherwise the accumulator grows by `deltaTime` and, once
it reaches `1000 / shipGenerationRate` ms, one ship is added (clamped to
capacity) and the accumulator resets to 0. -/
def Planet.updateShipGeneration (p : Planet) (deltaTime : ℚ) : Planet :=
  if p.owner = Owner.neutral ∨ p.capacity ≤ p.ships then p
  else
    let timer := p.shipGenerationTimer + deltaTime
    let generationInterval := 1000 / p.shipGenerationRate
    if generationInterval ≤ timer then
      { p with ships := min p.capacity (p.ships + 1), shipGenerationTimer := 0 }
    else
      { p with shipGenerationTimer := timer }

/-- `Planet.completeConquest`: the conquest-timer callback.  When a conquest
is in progress the conqueror becomes the owner and the conquest flags clear;
the ship count is not touched.  (`conqueror` is always set while
`isBeingConquered` holds — `startConquest` establishes it — so the `getD`
default is never exercised on reachable states.) -/
def Planet.completeConquest (p : Planet) : Planet :=
  if p.isBeingConquered then
    { p with owner := p.conqueror.getD p.owner
             isBeingConquered := false
             conqueror := none }
  else p

/-- `Planet.completeBattle`: the battle-timer callback.  If the attackers
strictly outnumber the defenders the attacker takes the planet with
`attackers - defenders` ships (no clamp to capacity in the source); otherwise
the owner keeps it with `max(0, defenders - attackers)` ships, which is
truncated natural subtraction.  Battle flags always clear. -/
def Planet.completeBattle (p : Planet) : Planet :=
  if p.isInBattle then
    let totalDefenders := p.ships
    let totalAttackers := p.attackingShips
    let p' :=
      if totalDefenders < totalAttackers then
        { p with owner := p.attackingOwner.getD p.owner
                 ships := totalAttackers - totalDefenders }
      else
        { p with ships := totalDefenders - totalAttackers }
    { p' with isInBattle := false, attackingOwner := none, attackingShips := 0 }
  else p

/-- `Planet.startBattle(attacker, attackingShips)`: unconditionally installs
the attacker in the single attacker slot and restarts the battle timer. -/
def Planet.startBattle (p : Planet) (attacker : Owner) (attackingShips : ℕ) : Planet :=
  { p with isInBattle := true
           attackingOwner := some attacker
           attackingShips := attackingShips
           battleTimer := p.battleTimer.start }

/-- `Planet.startConquest(conqueror, ships)`: a neutral planet enters (or
re-enters) the Conquering state with the given conqueror and a restarted
conquest timer — the `ships` argument is not recorded anywhere on this path.
A planet owned by another faction is attacked via `startBattle`; a friendly
planet is left unchanged. -/
def Planet.startConquest (p : Planet) (conqueror : Owner) (ships : ℕ) : Planet :=
  if p.owner = Owner.neutral then
    { p with isBeingConquered := true
             conqueror := some conqueror
             conquestTimer := p.conquestTimer.start }
  else if p.owner ≠ conqueror then
    p.startBattle conqueror ships
  else p

/-- `Planet.updateConquest(deltaTime)`: advance the conquest timer while a
conquest is in progress; when it fires, run `completeConquest`. -/
def Planet.updateConquest (p : Planet) (deltaTime : ℚ) : Planet :=
  if p.isBeingConquered then
    let r := p.conquestTimer.update deltaTime
    let p' := { p with conquestTimer := r.1 }
    if r.2 then p'.completeConquest else p'
  else p

/-- `Planet.updateBattle(deltaTime)`: advance the battle timer while a battle
is in progress; when it fires, run `completeBattle`. -/
def Planet.updateBattle (p : Planet) (deltaTime : ℚ) : Planet :=
  if p.isInBattle then
    let r := p.battleTimer.update deltaTime
    let p' := { p with battleTimer := r.1 }
    if r.2 then p'.completeBattle else p'
  else p

/-- `Planet.update(deltaTime)`: ship generation, then conquest, then battle
(`updateVisuals` is presentation-only and omitted). -/
def Planet.update (p : Planet) (deltaTime : ℚ) : Planet :=
  ((p.updateShipGeneration deltaTime).updateConquest deltaTime).updateBattle deltaTime

/-- `Planet.canSendShips(requestedShips)`. -/
def Planet.canSendShips (p : Planet) (requestedShips : ℕ) : Bool :=
  requestedShips ≤ p.ships ∧ 0 < requestedShips

/-- `Planet.removeShips(count)`: removal is clamped to the available ships;
returns the updated planet and the actual number removed. -/
def Planet.removeShips (p : Planet) (count : ℕ) : Planet × ℕ :=
  let actualCount := min count p.ships
  ({ p with ships := p.ships - actualCount }, actualCount)

/-- The simulation-relevant fields of `Fleet` (src/unnamed/part_009).  The
route is immutable; `ships` is fixed at creation.  `travelTime` is
`(distance / CONFIG.SHIP.SPEED) * 1000` ms computed from the planet
positions; positions (and the square root in the distance) are not modelled,
so the travel time is carried as a field whose value the embedded theorems
treat generically.  Visual state is omitted. -/
structure Fleet where
  ships : ℕ
  owner : Owner
  progress : ℚ
  travelTime : ℚ
  hasArrived : Bool
deriving DecidableEq, Repr

/-- The `Fleet` constructor: `progress = 0`, not arrived. -/
def mkFleet (ships : ℕ) (owner : Owner) (travelTime : ℚ) : Fleet :=
  { ships := ships, owner := owner, progress := 0
    travelTime := travelTime, hasArrived := false }

/-- `Fleet.update(deltaTime)`: progress advances linearly by
`deltaTime / travelTime`; on reaching 1 the fleet clamps progress to 1, marks
itself arrived and reports `true` (in JS this is where `handleArrival` runs
against the destination planet; here arrival resolution is the separate
`Fleet.handleArrival`, applied by the engine to the destination). -/
def Fleet.update (f : Fleet) (deltaTime : ℚ) : Fleet × Bool :=
  if f.hasArrived then (f, true)
  else
    let pr := f.progress + deltaTime / f.travelTime
    if 1 ≤ pr then ({ f with progress := 1, hasArrived := true }, true)
    else ({ f with progress := pr }, false)

/-- `Fleet.reinforcePlanet`: arriving ships are added to a friendly
destination up to its remaining capacity; the overflow is discarded.  The JS
arithmetic is on plain numbers, so `availableSpace` may be negative when the
destination is over capacity; the computation is therefore done in `ℤ` (the
final count `ships + min(fleetShips, capacity - ships)` is never negative, so
`toNat` is lossless). -/
def Fleet.reinforcePlanet (f : Fleet) (dest : Planet) : Planet :=
  let availableSpace : ℤ := (dest.capacity : ℤ) - (dest.ships : ℤ)
  let shipsToAdd : ℤ := min (f.ships : ℤ) availableSpace
  { dest with ships := ((dest.ships : ℤ) + shipsToAdd).toNat }

/-- `Fleet.handleArrival`: resolve the fleet against the destination — start
a conquest on a neutral planet, start a battle on an enemy planet, reinforce
a friendly one.  Returns the updated destination planet; the fleet is
destroyed by the engine afterwards. -/
def Fleet.handleArrival (f : Fleet) (dest : Planet) : Planet :=
  if dest.owner = Owner.neutral then
    dest.startConquest f.owner f.ships
  else if dest.owner ≠ f.owner then
    dest.startBattle f.owner f.ships
  else
    f.reinforcePlanet dest

/-- `GameEngine.sendFleet(source, target, ships, owner)` from
src/js/gameEngine.js: validates `canSendShips`, removes the ships from the
source and creates the fleet with the actual removed count.  Returns `none`
when validation fails (the JS early-returns without touching any state);
otherwise the updated source and the new fleet.  `travelTime` stands for the
travel duration the `Fleet` constructor derives from the two planets'
positions. -/
def sendFleet (source : Planet) (ships : ℕ) (owner : Owner) (travelTime : ℚ) :
    Option (Planet × Fleet) :=
  if source.canSendShips ships then
    let r := source.removeShips ships
    some (r.1, mkFleet r.2 owner travelTime)
  else none

/-- `GameEngine.handleFleetLaunch(source, target)`: the player-issued
transfer request.  A source not owned by the player, or with 0 ships, is
rejected immediately (`none`: no fleet is created and no state changes — the
JS early-returns).  Otherwise the ship count is computed per target owner
(1 for neutral targets, `target.ships + 1` capped by the source ships for
enemy targets, the free capacity capped by `source.ships - 1` for friendly
targets, in `ℤ` since the JS arithmetic can go negative), and only a strictly
positive count launches a fleet via `sendFleet`. -/
def handleFleetLaunch (source target : Planet) (travelTime : ℚ) :
    Option (Planet × Fleet) :=
  if source.owner ≠ Owner.player ∨ source.ships = 0 then none
  else
    let shipsToSend : ℤ :=
      if target.owner = Owner.neutral then
        min 1 (source.ships : ℤ)
      else if target.owner = Owner.ai then
        min ((target.ships : ℤ) + 1) (source.ships : ℤ)
      else
        min ((target.capacity : ℤ) - (target.ships : ℤ)) ((source.ships : ℤ) - 1)
    if 0 < shipsToSend then
      sendFleet source shipsToSend.toNat Owner.player travelTime
    else none

/-- The game-phase tag held in `GameEngine.gameState`. -/
inductive GameState
| initializing
| playing
| paused
| victory
| defeat
deriving DecidableEq, Repr

/-- The termination-relevant fields of `GameEngine`: the phase tag and the
running flag of the loop. -/
structure EngineFlags where
  gameState : GameState
  isRunning : Bool
deriving DecidableEq, Repr

/-- `GameEngine.endGame(result)`: set the terminal phase and stop the loop
(cancelling the animation frame, clearing selections and showing the game-over
modal with the stats are presentation effects). -/
def endGame (e : EngineFlags) (result : GameState) : EngineFlags :=
  { e with gameState := result, isRunning := false }

/-- `GameEngine.checkGameEnd()`: a player with 0 planets loses ('defeat' =
the AI faction wins); otherwise an AI with 0 planets means 'victory' for the
player; otherwise nothing happens. -/
def checkGameEnd (planets : List Planet) (e : EngineFlags) : EngineFlags :=
  let playerPlanets := (planets.filter fun p => decide (p.owner = Owner.player)).length
  let aiPlanets := (planets.filter fun p => decide (p.owner = Owner.ai)).length
  if playerPlanets = 0 then endGame e GameState.defeat
  else if aiPlanets = 0 then endGame e GameState.victory
  else e

/-- `AIController.calculateOptimalShipCount(source, target)` from
src/unnamed/part_010: 1 ship for a neutral target, otherwise the defenders
plus a 20% ceiling buffer plus 1; always capped by `source.ships - 1` so a
garrison of 1 stays behind.  Computed in `ℤ` as the JS value can be negative
when the source has 0 ships. -/
def calculateOptimalShipCount (source target : Planet) : ℤ :=
  let requiredShips : ℤ :=
    if target.owner = Owner.neutral then 1
    else
      let buffer : ℤ := Int.ceil ((target.ships : ℚ) * (1/5))
      (target.ships : ℤ) + buffer + 1
  let availableShips : ℤ := (source.ships : ℤ) - 1
  min requiredShips availableShips

/-- `AIController.generatePossibleActions`: every owned source planet with
strictly more than 1 ship is paired with every target (player-owned or
neutral); a candidate `(source, target, ships)` is kept only when the
computed ship count is strictly positive. -/
def generatePossibleActions (mine targets : List Planet) :
    List (Planet × Planet × ℕ) :=
  mine.flatMap fun sourcePlanet =>
    if 1 < sourcePlanet.ships then
      targets.filterMap fun targetPlanet =>
        let shipsToSend := calculateOptimalShipCount sourcePlanet targetPlanet
        if 0 < shipsToSend then some (sourcePlanet, targetPlanet, shipsToSend.toNat)
        else none
    else []

/-- Iterated `Planet.update` over a list of tick deltas. -/
def applyTicks (p : Planet) (ds : List ℚ) : Planet :=
  ds.foldl Planet.update p

/-- Iterated `Timer.update` over a list of tick deltas. -/
def Timer.updateList (t : Timer) (ds : List ℚ) : Timer :=
  ds.foldl (fun t d => (t.update d).1) t

/-- Iterated `Fleet.update` over a list of tick deltas. -/
def Fleet.updateList (f : Fleet) (ds : List ℚ) : Fleet :=
  ds.foldl (fun f d => (f.update d).1) f

/-- A capacity-6 planet whose battle slot holds 19 attackers against 0
defenders — reachable, e.g. launched from a capacity-20 source. -/
def battlingOverCap : Planet :=
  { mkPlanet 6 Owner.player with
    isInBattle := true
    attackingOwner := some Owner.ai
    attackingShips := 19
    battleTimer := { duration := BATTLE_TIME, elapsed := 0, active := true } }

/-- A battle of 10 attackers against 6 defenders on a player planet. -/
def battleTen : Planet :=
  { mkPlanet 12 Owner.player with
    ships := 6
    isInBattle := true
    attackingOwner := some Owner.ai
    attackingShips := 10
    battleTimer := { duration := BATTLE_TIME, elapsed := 0, active := true } }

/-- An AI-owned planet with 5 ships. -/
def aiSource : Planet := { mkPlanet 8 Owner.ai with ships := 5 }

/-- A player planet of capacity 10 (rate 2 ships/s, interval 500 ms) with 3
ships and an empty accumulator. -/
def producing : Planet := { mkPlanet 10 Owner.player with ships := 3 }

/-- A player planet and an AI planet for the termination witness. -/
def twoFactionWorld : List Planet :=
  [{ mkPlanet 10 Owner.player with ships := INITIAL_COUNT },
   { mkPlanet 8 Owner.ai with ships := INITIAL_COUNT },
   mkPlanet 6 Owner.neutral]

/-- A world where every former player planet has fallen to the AI. -/
def aiOnlyWorld : List Planet :=
  [{ mkPlanet 10 Owner.ai with ships := 4 }, mkPlanet 6 Owner.neutral]

/-- A neutral planet mid-conquest by the player, 1234 ms in. -/
def midConquest : Planet :=
  { mkPlanet 6 Owner.neutral with
    isBeingConquered := true
    conqueror := some Owner.player
    conquestTimer := { duration := NEUTRAL_TIME, elapsed := 1234, active := true } }

/-- A player planet mid-battle against 5 attacking ships, 700 ms in. -/
def midBattle : Planet :=
  { mkPlanet 8 Owner.player with
    ships := 4
    isInBattle := true
    attackingOwner := some Owner.player
    attackingShips := 5
    battleTimer := { duration := BATTLE_TIME, elapsed := 700, active := true } }

/-- A player source with 5 ships; a neutral capacity-6 destination. -/
def conservationSrc : Planet := { mkPlanet 10 Owner.player with ships := 5 }

/-- The neutral destination of the conservation counterexample. -/
def conservationDest : Planet := mkPlanet 6 Owner.neutral

/-- A friendly capacity-10 destination holding 8 ships, reinforced by 5. -/
def reinfDest : Planet := { mkPlanet 10 Owner.player with ships := 8 }

/-- The reinforcing fleet of 5 player ships. -/
def reinfFleet : Fleet := mkFleet 5 Owner.player 1000

/-- A producing planet for the additivity counterexample: capacity 10 gives
production rate exactly 2 ships/s, i.e. a 500 ms interval. -/
def producingFromZero : Planet := mkPlanet 10 Owner.player

/-- A running conquest timer for the C4 witness. -/
def runningTimer : Timer := { duration := NEUTRAL_TIME, elapsed := 0, active := true }

/-- The in-flight fleet of the C4 witness (travel time 2000 ms). -/
def flightFleet : Fleet := mkFleet 3 Owner.player 2000

/-- The state of a neutral planet of capacity `c` mid-conquest by `F` with
`e` ms of conquest time elapsed. -/
def conqueringState (c : ℕ) (F : Owner) (e : ℚ) : Planet :=
  { mkPlanet c Owner.neutral with
    isBeingConquered := true
    conqueror := some F
    conquestTimer := { duration := NEUTRAL_TIME, elapsed := e, active := true } }

/-- The AI source planet of the C7 witness: 5 ships on capacity 10. -/
def aiSourcePlanet : Planet := { mkPlanet 10 Owner.ai with ships := 5 }

/-- The neutral target planet of the C7 witness. -/
def aiTargetPlanet : Planet := mkPlanet 6 Owner.neutral

/-- The candidate action the Decision Engine generates for them. -/
def aiCandidate : Planet × Planet × ℕ := (aiSourcePlanet, aiTargetPlanet, 1)

/-- C1: the claim (unit count always in [0, capacity]) is the code's own
documented intent (`capacity - Maximum ships the planet can hold`), but
`Planet.completeBattle` assigns `attackers - defenders` to the winner without
clamping to capacity: resolving a battle of 19 attackers versus 0 defenders
on a capacity-6 planet leaves 19 > 6 ships. -/
theorem C1_completeBattle_exceeds_capacity :
    battlingOverCap.completeBattle.ships = 19 ∧
    battlingOverCap.capacity = 6 ∧
    battlingOverCap.capacity < battlingOverCap.completeBattle.ships := by
  decide

/-- C3: when the battle timer elapses, `completeBattle` hands the planet to
the attacker with `attackers - defenders` ships when attackers strictly
outnumber defenders, and otherwise keeps the owner with
`max(0, defenders - attackers)` ships (truncated subtraction); in both cases
the battle flags clear and the attacker slot empties. -/
theorem C3_battle_resolution (p : Planet) (a : Owner)
    (hb : p.isInBattle = true) (ha : p.attackingOwner = some a) :
    (p.ships < p.attackingShips →
       p.completeBattle.owner = a ∧
       p.completeBattle.ships = p.attackingShips - p.ships) ∧
    (p.attackingShips ≤ p.ships →
       p.completeBattle.owner = p.owner ∧
       p.completeBattle.ships = p.ships - p.attackingShips) ∧
    p.completeBattle.isInBattle = false ∧
    p.completeBattle.attackingShips = 0 ∧
    p.completeBattle.attackingOwner = none := by
  by_cases h : p.ships < p.attackingShips
  · simp [Planet.completeBattle, hb, ha, h, Nat.not_le.mpr h]
  · simp [Planet.completeBattle, hb, ha, h, Nat.not_lt.mp h]

/-- Witness for C3 at attackers = 10, defenders = 6: the attacker wins with
4 ships, as the spec's concrete example requires. -/
theorem C3_battle_resolution_witness :
    battleTen.isInBattle = true ∧
    battleTen.completeBattle.owner = Owner.ai ∧
    battleTen.completeBattle.ships = 4 := by
  have h := C3_battle_resolution battleTen Owner.ai (by decide) rfl
  exact ⟨by decide, (h.1 (by decide)).1, (h.1 (by decide)).2⟩

/-- C6: a transfer request whose source is not player-owned or holds 0 ships
is rejected with no fleet created and no planet mutated (`handleFleetLaunch`
returns `none` — the JS early-returns before touching any state, and throws
nothing since the function is total); and `removeShips` clamps a
rwithdrawal to the available ships, with removed + remaining = original. -/
theorem C6_invalid_transfer :
    (∀ (source target : Planet) (travelTime : ℚ),
        source.owner ≠ Owner.player ∨ source.ships = 0 →
        handleFleetLaunch source target travelTime = none) ∧
    (∀ (p : Planet) (count : ℕ),
        (p.removeShips count).2 = min count p.ships ∧
        (p.removeShips count).2 ≤ p.ships ∧
        (p.removeShips count).1.ships + (p.removeShips count).2 = p.ships) := by
  constructor
  · intro s t tt h
    unfold handleFleetLaunch
    rw [if_pos h]
  · intro p c
    refine ⟨rfl, ?_, ?_⟩ <;> simp [Planet.removeShips]

/-- Witness for C6: a request from an AI-owned source is rejected, and
removing 7 ships from a 5-ship planet removes exactly 5. -/
theorem C6_invalid_transfer_witness :
    (aiSource.owner ≠ Owner.player ∨ aiSource.ships = 0) ∧
    handleFleetLaunch aiSource (mkPlanet 6 Owner.neutral) 1000 = none ∧
    (aiSource.removeShips 7).2 = min 7 aiSource.ships := by
  refine ⟨Or.inl (by decide), ?_, ?_⟩
  · exact C6_invalid_transfer.1 aiSource (mkPlanet 6 Owner.neutral) 1000 (Or.inl (by decide))
  · exact (C6_invalid_transfer.2 aiSource 7).1

/-- C8: production on an owned, below-capacity planet accumulates the tick
delta; when the accumulator reaches `1000 / productionRate` exactly one ship
is added (the clamp never lifts it above capacity) and the accumulator
resets; neutral planets and planets at capacity are left completely
unchanged; and the production rate is strictly monotone in capacity. -/
theorem C8_production (p : Planet) (dt : ℚ) :
    (p.owner = Owner.neutral ∨ p.capacity ≤ p.ships →
       p.updateShipGeneration dt = p) ∧
    (p.owner ≠ Owner.neutral → p.ships < p.capacity →
       (1000 / p.shipGenerationRate ≤ p.shipGenerationTimer + dt →
          (p.updateShipGeneration dt).ships = p.ships + 1 ∧
          (p.updateShipGeneration dt).ships ≤ p.capacity ∧
          (p.updateShipGeneration dt).shipGenerationTimer = 0) ∧
       (p.shipGenerationTimer + dt < 1000 / p.shipGenerationRate →
          (p.updateShipGeneration dt).ships = p.ships ∧
          (p.updateShipGeneration dt).shipGenerationTimer =
            p.shipGenerationTimer + dt)) ∧
    (∀ c₁ c₂ : ℕ, c₁ < c₂ → getShipGenerationRate c₁ < getShipGenerationRate c₂) := by
  refine ⟨?_, ?_, ?_⟩
  · intro h
    unfold Planet.updateShipGeneration
    rw [if_pos h]
  · intro h1 h2
    have hc : ¬ (p.owner = Owner.neutral ∨ p.capacity ≤ p.ships) := by
      rintro (h | h)
      · exact h1 h
      · omega
    constructor
    · intro hth
      unfold Planet.updateShipGeneration
      rw [if_neg hc]
      simp only [hth, if_pos]
      refine ⟨by omega, by omega, by trivial⟩
    · intro hth
      unfold Planet.updateShipGeneration
      rw [if_neg hc]
      simp [not_le.mpr hth]
  · intro c₁ c₂ h
    have hc : (c₁ : ℚ) < c₂ := by exact_mod_cast h
    have hm : (c₁ : ℚ) * GENERATION_MULTIPLIER < (c₂ : ℚ) * GENERATION_MULTIPLIER := by
      apply mul_lt_mul_of_pos_right hc
      norm_num [GENERATION_MULTIPLIER]
    unfold getShipGenerationRate
    linarith

/-- Witness for C8: a 500 ms tick on `producing` reaches the 500 ms interval
and yields exactly one ship with the accumulator reset; capacity 6 produces
more slowly than capacity 8. -/
theorem C8_production_witness :
    (producing.owner ≠ Owner.neutral ∧ producing.ships < producing.capacity ∧
       1000 / producing.shipGenerationRate ≤ producing.shipGenerationTimer + 500) ∧
    (producing.updateShipGeneration 500).ships = 4 ∧
    (producing.updateShipGeneration 500).shipGenerationTimer = 0 ∧
    getShipGenerationRate 6 < getShipGenerationRate 8 := by
  have h := C8_production producing 500
  have hth : 1000 / producing.shipGenerationRate ≤ producing.shipGenerationTimer + 500 := by
    norm_num [producing, mkPlanet, getShipGenerationRate, GENERATION_BASE,
      GENERATION_MULTIPLIER]
  have hmain := (h.2.1 (by decide) (by decide)).1 hth
  exact ⟨⟨by decide, by decide, hth⟩, hmain.1, hmain.2.2,
    h.2.2 6 8 (by omega)⟩

/-- C9: after a tick's updates, a player owning 0 nodes ends the game as
'defeat' (the AI faction's win) with the loop stopped, an AI owning 0 nodes
ends it as 'victory' with the loop stopped, and while both factions own at
least one node `checkGameEnd` changes nothing.  (Reporting the terminal
result with summary stats is `endGame`'s call into the UI layer.) -/
theorem C9_termination (planets : List Planet) (e : EngineFlags) :
    ((planets.filter fun p => decide (p.owner = Owner.player)).length = 0 →
       0 < (planets.filter fun p => decide (p.owner = Owner.ai)).length →
       checkGameEnd planets e =
         { gameState := GameState.defeat, isRunning := false }) ∧
    (0 < (planets.filter fun p => decide (p.owner = Owner.player)).length →
       (planets.filter fun p => decide (p.owner = Owner.ai)).length = 0 →
       checkGameEnd planets e =
         { gameState := GameState.victory, isRunning := false }) ∧
    (0 < (planets.filter fun p => decide (p.owner = Owner.player)).length →
       0 < (planets.filter fun p => decide (p.owner = Owner.ai)).length →
       checkGameEnd planets e = e) := by
  refine ⟨?_, ?_, ?_⟩
  · intro h1 _
    simp only [checkGameEnd, endGame]
    rw [if_pos h1]
  · intro h1 h2
    simp only [checkGameEnd, endGame]
    rw [if_neg (by omega), if_pos h2]
  · intro h1 h2
    simp only [checkGameEnd, endGame]
    rw [if_neg (by omega), if_neg (by omega)]

/-- Witness for C9: with both factions present the tick leaves the engine
running; once the player owns 0 planets the phase becomes 'defeat' and the
loop stops. -/
theorem C9_termination_witness :
    checkGameEnd twoFactionWorld { gameState := GameState.playing, isRunning := true } =
      { gameState := GameState.playing, isRunning := true } ∧
    checkGameEnd aiOnlyWorld { gameState := GameState.playing, isRunning := true } =
      { gameState := GameState.defeat, isRunning := false } := by
  constructor
  · exact (C9_termination twoFactionWorld
      { gameState := GameState.playing, isRunning := true }).2.2
      (by decide) (by decide)
  · exact (C9_termination aiOnlyWorld
      { gameState := GameState.playing, isRunning := true }).1
      (by decide) (by decide)

/-- C10: restarting a conquest on a node already mid-Conquering, or a battle
on a node already Battling, overwrites the single attacker slot and restarts
the corresponding timer from `elapsed = 0` (via `Timer.start`), discarding
whatever progress — and for battles whatever attacking ships — the previous
attacker had accumulated. -/
theorem C10_attacker_overwrite (p : Planet) (F : Owner) (n : ℕ) :
    (p.owner = Owner.neutral → p.isBeingConquered = true →
       (p.startConquest F n).conqueror = some F ∧
       (p.startConquest F n).isBeingConquered = true ∧
       (p.startConquest F n).conquestTimer.elapsed = 0 ∧
       (p.startConquest F n).conquestTimer.active = true) ∧
    (p.isInBattle = true →
       (p.startBattle F n).attackingOwner = some F ∧
       (p.startBattle F n).attackingShips = n ∧
       (p.startBattle F n).isInBattle = true ∧
       (p.startBattle F n).battleTimer.elapsed = 0 ∧
       (p.startBattle F n).battleTimer.active = true) := by
  constructor
  · intro ho _
    simp [Planet.startConquest, ho, Timer.start]
  · intro _
    simp [Planet.startBattle, Timer.start]

/-- Witness for C10: overwriting the mid-conquest with an AI fleet resets
the conquest timer to 0 with the AI as conqueror; overwriting the mid-battle
with 9 AI ships replaces the slot and resets the battle timer. -/
theorem C10_attacker_overwrite_witness :
    (midConquest.owner = Owner.neutral ∧ midConquest.isBeingConquered = true) ∧
    (midConquest.startConquest Owner.ai 2).conqueror = some Owner.ai ∧
    (midConquest.startConquest Owner.ai 2).conquestTimer.elapsed = 0 ∧
    (midBattle.isInBattle = true) ∧
    (midBattle.startBattle Owner.ai 9).attackingShips = 9 ∧
    (midBattle.startBattle Owner.ai 9).battleTimer.elapsed = 0 := by
  have h1 := (C10_attacker_overwrite midConquest Owner.ai 2).1 (by decide) (by decide)
  have h2 := (C10_attacker_overwrite midBattle Owner.ai 9).2 (by decide)
  exact ⟨⟨by decide, by decide⟩, h1.1, h1.2.2.1, by decide, h2.2.1, h2.2.2.2.1⟩

/-- C2 (amended): unit accounting of a transfer and its resolution.
Launching conserves units between source and fleet; a friendly arrival adds
up to the free capacity (the overflow is the only loss); an enemy arrival
moves the fleet intact into the attacker slot; battle resolution removes
exactly `min(attackers, defenders)` from each side and empties the slot; and
— the amendment — a fleet arriving at an Unclaimed node is consumed whole
when the conquest starts: the node's ships and attacker slot are unchanged
and the fleet's units appear nowhere. -/
theorem C2_amended :
    (∀ (s : Planet) (n : ℕ) (ow : Owner) (tt : ℚ) (s' : Planet) (fl : Fleet),
        sendFleet s n ow tt = some (s', fl) →
        s'.ships + fl.ships = s.ships) ∧
    (∀ (fl : Fleet) (dest : Planet),
        fl.owner ≠ Owner.neutral → dest.owner = fl.owner →
        dest.ships ≤ dest.capacity →
        (fl.handleArrival dest).ships = min dest.capacity (dest.ships + fl.ships)) ∧
    (∀ (fl : Fleet) (dest : Planet),
        dest.owner ≠ Owner.neutral → dest.owner ≠ fl.owner →
        (fl.handleArrival dest).ships = dest.ships ∧
        (fl.handleArrival dest).attackingShips = fl.ships) ∧
    (∀ p : Planet, p.isInBattle = true →
        p.completeBattle.ships + min p.attackingShips p.ships
            + min p.attackingShips p.ships = p.ships + p.attackingShips ∧
        p.completeBattle.attackingShips = 0) ∧
    (∀ (fl : Fleet) (dest : Planet), dest.owner = Owner.neutral →
        (fl.handleArrival dest).ships = dest.ships ∧
        (fl.handleArrival dest).attackingShips = dest.attackingShips) := by
  refine ⟨?_, ?_, ?_, ?_, ?_⟩
  · intro s n ow tt s' fl h
    unfold sendFleet at h
    by_cases hc : s.canSendShips n
    · rw [if_pos hc] at h
      simp only [Option.some.injEq, Prod.mk.injEq] at h
      obtain ⟨h1, h2⟩ := h
      subst h1
      subst h2
      simp only [Planet.removeShips, mkFleet]
      omega
    · rw [if_neg hc] at h
      cases h
  · intro fl dest hne ho hle
    unfold Fleet.handleArrival
    rw [if_neg (by rw [ho]; exact hne), if_neg (by simp [ho])]
    unfold Fleet.reinforcePlanet
    dsimp only
    omega
  · intro fl dest hno hdiff
    unfold Fleet.handleArrival
    rw [if_neg hno, if_pos hdiff]
    unfold Planet.startBattle
    exact ⟨rfl, rfl⟩
  · intro p hb
    refine ⟨?_, ?_⟩
    · unfold Planet.completeBattle
      rw [if_pos (by simp [hb])]
      dsimp only
      by_cases h : p.ships < p.attackingShips
      · rw [if_pos h]
        dsimp only
        omega
      · rw [if_neg h]
        dsimp only
        omega
    · unfold Planet.completeBattle
      rw [if_pos (by simp [hb])]
  · intro fl dest hno
    unfold Fleet.handleArrival
    rw [if_pos hno]
    unfold Planet.startConquest
    rw [if_pos hno]
    exact ⟨rfl, rfl⟩

/-- C2 counterexample (the claim as stated): the system holds 5 units; after
sending 1 unit to the Unclaimed destination and resolving the arrival, the
source holds 4, the destination still 0 and its attacker slot 0 — one unit
vanished although the destination is not friendly (so no capacity-overflow
loss) and no battle resolved.  Sending to an Unclaimed node does lose units
outside the claim's two exceptions. -/
theorem C2_counterexample :
    conservationDest.owner = Owner.neutral ∧
    conservationDest.owner ≠ conservationSrc.owner ∧
    (sendFleet conservationSrc 1 Owner.player 1000).map
        (fun r => r.1.ships +
          ((r.2.handleArrival conservationDest).ships +
            (r.2.handleArrival conservationDest).attackingShips)) = some 4 ∧
    conservationSrc.ships +
        (conservationDest.ships + conservationDest.attackingShips) = 5 := by
  decide

/-- Witness for C2 (amended) at the spec's reinforcement example: a friendly
arrival of 5 onto capacity 10 with 8 ships leaves exactly 10 (2 lost to
overflow). -/
theorem C2_amended_witness :
    (reinfFleet.owner ≠ Owner.neutral ∧ reinfDest.owner = reinfFleet.owner ∧
        reinfDest.ships ≤ reinfDest.capacity) ∧
    (reinfFleet.handleArrival reinfDest).ships = 10 := by
  have h := C2_amended.2.1 reinfFleet reinfDest (by decide) (by decide) (by decide)
  refine ⟨⟨by decide, by decide, by decide⟩, ?_⟩
  rw [h]
  decide

/-- `Timer.update` on an inactive timer is the identity. -/
lemma Timer.update_inactive (t : Timer) (d : ℚ) (h : t.active = false) :
    t.update d = (t, false) := by
  unfold Timer.update
  rw [if_pos h]

/-- Iterated updates on an inactive timer are the identity. -/
lemma Timer.updateList_inactive (t : Timer) (ds : List ℚ) (h : t.active = false) :
    t.updateList ds = t := by
  induction ds generalizing t with
  | nil => rfl
  | cons d rest ih =>
    show Timer.updateList (t.update d).1 rest = t
    rw [Timer.update_inactive t d h]
    exact ih t h

/-- `Timer.update` on an active timer, in closed form. -/
lemma Timer.update_active (t : Timer) (d : ℚ) (ha : t.active = true) :
    (t.update d).1 =
      if t.duration ≤ t.elapsed + d
      then { t with elapsed := t.elapsed + d, active := false }
      else { t with elapsed := t.elapsed + d } := by
  unfold Timer.update
  rw [if_neg (by simp [ha])]
  by_cases h : t.duration ≤ t.elapsed + d
  · rw [if_pos h, if_pos h]
  · rw [if_neg h, if_neg h]

/-- Additivity of `Timer.update` in the tick delta: over any sequence of
nonnegative deltas the timer is active afterwards exactly when a single
update by the summed delta leaves it active, and while it stays active its
elapsed value is the exact sum.  (When the timer fires, the stranded elapsed
values may differ — the timer-resolution rounding.) -/
lemma timer_tick_additive (t : Timer) (ds : List ℚ)
    (hnn : ∀ d ∈ ds, 0 ≤ d)
    (hinv : t.active = true → t.elapsed < t.duration) :
    (t.updateList ds).active = ((t.update ds.sum).1).active ∧
    ((t.updateList ds).active = true →
       (t.updateList ds).elapsed = t.elapsed + ds.sum) := by
  induction ds generalizing t with
  | nil =>
    by_cases ha : t.active = true
    · have hlt := hinv ha
      have hs : (t.update ([] : List ℚ).sum).1 = { t with elapsed := t.elapsed + 0 } := by
        rw [List.sum_nil, Timer.update_active t 0 ha, if_neg (by linarith)]
      refine ⟨?_, fun _ => by simp [Timer.updateList]⟩
      show t.active = _
      rw [hs]
    · have ha' : t.active = false := by revert ha; cases t.active <;> simp
      have hs : (t.update ([] : List ℚ).sum).1 = t := by
        rw [Timer.update_inactive t _ ha']
      refine ⟨?_, fun _ => by simp [Timer.updateList]⟩
      show t.active = _
      rw [hs]
  | cons d rest ih =>
    have hd : 0 ≤ d := hnn d (List.mem_cons_self d rest)
    have hrest : ∀ x ∈ rest, 0 ≤ x := fun x hx => hnn x (List.mem_cons_of_mem d hx)
    have hsum0 : 0 ≤ rest.sum := List.sum_nonneg hrest
    have hlistcons : t.updateList (d :: rest) = Timer.updateList (t.update d).1 rest := rfl
    by_cases ha : t.active = true
    · have hlt := hinv ha
      by_cases hfire : t.duration ≤ t.elapsed + d
      · have ht' : (t.update d).1 = { t with elapsed := t.elapsed + d, active := false } := by
          rw [Timer.update_active t d ha, if_pos hfire]
        have hlist : t.updateList (d :: rest)
            = { t with elapsed := t.elapsed + d, active := false } := by
          rw [hlistcons, ht']
          exact Timer.updateList_inactive _ rest rfl
        have hbig : t.duration ≤ t.elapsed + (d :: rest).sum := by
          rw [List.sum_cons]
          linarith
        have hsingle : (t.update (d :: rest).sum).1
            = { t with elapsed := t.elapsed + (d :: rest).sum, active := false } := by
          rw [Timer.update_active t _ ha, if_pos hbig]
        constructor
        · rw [hlist, hsingle]
        · intro hact
          rw [hlist] at hact
          simp at hact
      · have ht' : (t.update d).1 = { t with elapsed := t.elapsed + d } := by
          rw [Timer.update_active t d ha, if_neg hfire]
        have hinv' : ({ t with elapsed := t.elapsed + d } : Timer).active = true →
            ({ t with elapsed := t.elapsed + d } : Timer).elapsed <
              ({ t with elapsed := t.elapsed + d } : Timer).duration := by
          intro _
          have := not_le.mp hfire
          dsimp only
          linarith
        have ihh := ih { t with elapsed := t.elapsed + d } hrest hinv'
        have hstep : (({ t with elapsed := t.elapsed + d } : Timer).update rest.sum).1
            = (t.update ((d :: rest).sum)).1 := by
          rw [Timer.update_active { t with elapsed := t.elapsed + d } rest.sum ha,
            Timer.update_active t _ ha]
          dsimp only
          rw [List.sum_cons, show t.elapsed + d + rest.sum = t.elapsed + (d + rest.sum) from by ring]
        constructor
        · rw [hlistcons, ht', ihh.1, hstep]
        · intro hact
          rw [hlistcons, ht'] at hact ⊢
          rw [ihh.2 hact]
          dsimp only
          rw [List.sum_cons]
          ring
    · have ha' : t.active = false := by revert ha; cases t.active <;> simp
      have hlist : t.updateList (d :: rest) = t := Timer.updateList_inactive t _ ha'
      have hsingle : (t.update (d :: rest).sum).1 = t := by
        rw [Timer.update_inactive t _ ha']
      constructor
      · rw [hlist, hsingle]
      · intro hact
        rw [hlist] at hact
        rw [hact] at ha'
        cases ha'

/-- `Fleet.update` on an arrived fleet is the identity. -/
lemma Fleet.update_arrived (f : Fleet) (d : ℚ) (h : f.hasArrived = true) :
    f.update d = (f, true) := by
  unfold Fleet.update
  rw [if_pos h]

/-- Iterated updates on an arrived fleet are the identity. -/
lemma Fleet.updateList_arrived (f : Fleet) (ds : List ℚ) (h : f.hasArrived = true) :
    f.updateList ds = f := by
  induction ds generalizing f with
  | nil => rfl
  | cons d rest ih =>
    show Fleet.updateList (f.update d).1 rest = f
    rw [Fleet.update_arrived f d h]
    exact ih f h

/-- `Fleet.update` on an in-flight fleet, in closed form. -/
lemma Fleet.update_in_flight (f : Fleet) (d : ℚ) (h : f.hasArrived = false) :
    (f.update d).1 =
      if 1 ≤ f.progress + d / f.travelTime
      then { f with progress := 1, hasArrived := true }
      else { f with progress := f.progress + d / f.travelTime } := by
  unfold Fleet.update
  rw [if_neg (by simp [h])]
  by_cases hc : 1 ≤ f.progress + d / f.travelTime
  · rw [if_pos hc, if_pos hc]
  · rw [if_neg hc, if_neg hc]

/-- Additivity of fleet progress in the tick delta: over nonnegative deltas
the fleet arrives after the sequence exactly when it arrives after one update
by the summed delta, and while in flight its progress is exactly
`progress + total / travelTime`. -/
lemma fleet_tick_additive (f : Fleet) (ds : List ℚ)
    (hnn : ∀ d ∈ ds, 0 ≤ d) (ht : 0 < f.travelTime)
    (hinv : f.hasArrived = false → f.progress < 1) :
    (f.updateList ds).hasArrived = ((f.update ds.sum).1).hasArrived ∧
    ((f.updateList ds).hasArrived = false →
       (f.updateList ds).progress = f.progress + ds.sum / f.travelTime) := by
  induction ds generalizing f with
  | nil =>
    by_cases ha : f.hasArrived = true
    · have hs : (f.update ([] : List ℚ).sum).1 = f := by
        rw [Fleet.update_arrived f _ ha]
      refine ⟨?_, fun _ => by simp [Fleet.updateList]⟩
      show f.hasArrived = _
      rw [hs]
    · have ha' : f.hasArrived = false := by revert ha; cases f.hasArrived <;> simp
      have hlt := hinv ha'
      have hs : (f.update ([] : List ℚ).sum).1 = { f with progress := f.progress + 0 / f.travelTime } := by
        rw [List.sum_nil, Fleet.update_in_flight f 0 ha']
        rw [if_neg (by rw [zero_div]; linarith)]
      refine ⟨?_, fun _ => by simp [Fleet.updateList]⟩
      show f.hasArrived = _
      rw [hs]
  | cons d rest ih =>
    have hd : 0 ≤ d := hnn d (List.mem_cons_self d rest)
    have hrest : ∀ x ∈ rest, 0 ≤ x := fun x hx => hnn x (List.mem_cons_of_mem d hx)
    have hsum0 : 0 ≤ rest.sum := List.sum_nonneg hrest
    have hsumdiv : 0 ≤ rest.sum / f.travelTime := div_nonneg hsum0 ht.le
    have hlistcons : f.updateList (d :: rest) = Fleet.updateList (f.update d).1 rest := rfl
    by_cases ha : f.hasArrived = true
    · have hlist : f.updateList (d :: rest) = f := Fleet.updateList_arrived f _ ha
      have hsingle : (f.update (d :: rest).sum).1 = f := by
        rw [Fleet.update_arrived f _ ha]
      constructor
      · rw [hlist, hsingle]
      · intro hact
        rw [hlist] at hact
        rw [hact] at ha
        cases ha
    · have ha' : f.hasArrived = false := by revert ha; cases f.hasArrived <;> simp
      have hlt := hinv ha'
      by_cases hfire : 1 ≤ f.progress + d / f.travelTime
      · have hf' : (f.update d).1 = { f with progress := 1, hasArrived := true } := by
          rw [Fleet.update_in_flight f d ha', if_pos hfire]
        have hlist : f.updateList (d :: rest) = { f with progress := 1, hasArrived := true } := by
          rw [hlistcons, hf']
          exact Fleet.updateList_arrived _ rest rfl
        have hbig : 1 ≤ f.progress + (d :: rest).sum / f.travelTime := by
          rw [List.sum_cons, add_div]
          have := div_nonneg hsum0 ht.le
          linarith
        have hsingle : (f.update (d :: rest).sum).1
            = { f with progress := 1, hasArrived := true } := by
          rw [Fleet.update_in_flight f _ ha', if_pos hbig]
        constructor
        · rw [hlist, hsingle]
        · intro hact
          rw [hlist] at hact
          simp at hact
      · have hf' : (f.update d).1 = { f with progress := f.progress + d / f.travelTime } := by
          rw [Fleet.update_in_flight f d ha', if_neg hfire]
        have hinv' : ({ f with progress := f.progress + d / f.travelTime } : Fleet).hasArrived = false →
            ({ f with progress := f.progress + d / f.travelTime } : Fleet).progress < 1 := by
          intro _
          have := not_le.mp hfire
          dsimp only
          linarith
        have ihh := ih { f with progress := f.progress + d / f.travelTime } hrest ht hinv'
        have hstep : (({ f with progress := f.progress + d / f.travelTime } : Fleet).update rest.sum).1
            = (f.update ((d :: rest).sum)).1 := by
          rw [Fleet.update_in_flight { f with progress := f.progress + d / f.travelTime }
              rest.sum ha',
            Fleet.update_in_flight f _ ha']
          dsimp only
          rw [List.sum_cons, add_div,
            show f.progress + d / f.travelTime + rest.sum / f.travelTime
              = f.progress + (d / f.travelTime + rest.sum / f.travelTime) from by ring]
        constructor
        · rw [hlistcons, hf', ihh.1, hstep]
        · intro hact
          rw [hlistcons, hf'] at hact ⊢
          rw [ihh.2 hact]
          dsimp only
          rw [List.sum_cons, add_div]
          ring

/-- C4 (amended): `Timer.update` elapsed-time accumulation and `Fleet.update`
progress accumulation are additive in the delta argument — any sequence of
nonnegative tick deltas leaves a timer active (resp. a fleet in flight)
exactly when a single tick of the summed delta does, with identical
elapsed/progress while no firing occurred (after a firing, only the stranded
elapsed value may differ: the timer-resolution rounding).  Production
accumulation is excluded: it is not additive, see the counterexample. -/
theorem C4_amended :
    (∀ (t : Timer) (ds : List ℚ), (∀ d ∈ ds, 0 ≤ d) →
       (t.active = true → t.elapsed < t.duration) →
       (t.updateList ds).active = ((t.update ds.sum).1).active ∧
       ((t.updateList ds).active = true →
          (t.updateList ds).elapsed = t.elapsed + ds.sum)) ∧
    (∀ (f : Fleet) (ds : List ℚ), (∀ d ∈ ds, 0 ≤ d) → 0 < f.travelTime →
       (f.hasArrived = false → f.progress < 1) →
       (f.updateList ds).hasArrived = ((f.update ds.sum).1).hasArrived ∧
       ((f.updateList ds).hasArrived = false →
          (f.updateList ds).progress = f.progress + ds.sum / f.travelTime)) :=
  ⟨timer_tick_additive, fleet_tick_additive⟩

/-- `updateShipGeneration` in closed form when the interval is reached. -/
lemma updateShipGeneration_fires (p : Planet) (dt : ℚ)
    (h1 : ¬ (p.owner = Owner.neutral ∨ p.capacity ≤ p.ships))
    (h2 : 1000 / p.shipGenerationRate ≤ p.shipGenerationTimer + dt) :
    p.updateShipGeneration dt =
      { p with ships := min p.capacity (p.ships + 1), shipGenerationTimer := 0 } := by
  unfold Planet.updateShipGeneration
  rw [if_neg h1]
  dsimp only
  rw [if_pos h2]

/-- C4 counterexample (the claim as stated): production accumulation is not
additive in the tick delta.  Two 500 ms ticks produce 2 ships, but a single
1000 ms tick produces only 1 — the accumulator resets to 0 when it fires and
the overshoot is discarded, so the states differ by a whole produced unit,
beyond any timer-resolution rounding. -/
theorem C4_counterexample :
    ((producingFromZero.updateShipGeneration 500).updateShipGeneration 500).ships = 2 ∧
    (producingFromZero.updateShipGeneration 1000).ships = 1 ∧
    ((producingFromZero.updateShipGeneration 500).updateShipGeneration 500).ships ≠
      (producingFromZero.updateShipGeneration 1000).ships := by
  have hcond : ¬ (producingFromZero.owner = Owner.neutral ∨
      producingFromZero.capacity ≤ producingFromZero.ships) := by
    rintro (h | h)
    · exact Owner.noConfusion h
    · exact absurd h (by norm_num [producingFromZero, mkPlanet])
  have e1 : producingFromZero.updateShipGeneration 500 =
      { producingFromZero with ships := 1, shipGenerationTimer := 0 } := by
    rw [updateShipGeneration_fires producingFromZero 500 hcond
      (by norm_num [producingFromZero, mkPlanet, getShipGenerationRate,
        GENERATION_BASE, GENERATION_MULTIPLIER])]
    norm_num [producingFromZero, mkPlanet]
  have hcond1 : ¬ (({ producingFromZero with ships := 1, shipGenerationTimer := 0 } : Planet).owner
        = Owner.neutral ∨
      ({ producingFromZero with ships := 1, shipGenerationTimer := 0 } : Planet).capacity ≤
        ({ producingFromZero with ships := 1, shipGenerationTimer := 0 } : Planet).ships) := by
    rintro (h | h)
    · exact Owner.noConfusion h
    · exact absurd h (by norm_num [producingFromZero, mkPlanet])
  have e2 : ({ producingFromZero with ships := 1, shipGenerationTimer := 0 } : Planet).updateShipGeneration 500 =
      { producingFromZero with ships := 2, shipGenerationTimer := 0 } := by
    rw [updateShipGeneration_fires _ 500 hcond1
      (by norm_num [producingFromZero, mkPlanet, getShipGenerationRate,
        GENERATION_BASE, GENERATION_MULTIPLIER])]
    norm_num [producingFromZero, mkPlanet]
  have e3 : producingFromZero.updateShipGeneration 1000 =
      { producingFromZero with ships := 1, shipGenerationTimer := 0 } := by
    rw [updateShipGeneration_fires producingFromZero 1000 hcond
      (by norm_num [producingFromZero, mkPlanet, getShipGenerationRate,
        GENERATION_BASE, GENERATION_MULTIPLIER])]
    norm_num [producingFromZero, mkPlanet]
  rw [e1, e2, e3]
  refine ⟨rfl, rfl, by norm_num⟩

/-- Witness for C4 (amended): ticking the 3000 ms timer by 300 + 400 leaves
the same active state as one 700 ms tick, and likewise for the in-flight
fleet's arrival state. -/
theorem C4_amended_witness :
    ((0 : ℚ) ≤ 300 ∧ (0 : ℚ) ≤ 400 ∧ runningTimer.elapsed < runningTimer.duration ∧
       (0 : ℚ) < flightFleet.travelTime ∧ flightFleet.progress < 1) ∧
    (runningTimer.updateList [300, 400]).active =
      ((runningTimer.update ([300, 400] : List ℚ).sum).1).active ∧
    (flightFleet.updateList [300, 400]).hasArrived =
      ((flightFleet.update ([300, 400] : List ℚ).sum).1).hasArrived := by
  have hnn : ∀ d ∈ ([300, 400] : List ℚ), 0 ≤ d := by
    intro d hd
    simp only [List.mem_cons, List.not_mem_nil, or_false] at hd
    rcases hd with rfl | rfl <;> norm_num
  have ht := C4_amended.1 runningTimer [300, 400] hnn
    (fun _ => by norm_num [runningTimer, NEUTRAL_TIME])
  have hf := C4_amended.2 flightFleet [300, 400] hnn
    (by norm_num [flightFleet, mkFleet])
    (fun _ => by norm_num [flightFleet, mkFleet])
  exact ⟨⟨by norm_num, by norm_num, by norm_num [runningTimer, NEUTRAL_TIME],
    by norm_num [flightFleet, mkFleet], by norm_num [flightFleet, mkFleet]⟩,
    ht.1, hf.1⟩

/-- Starting a conquest on a fresh neutral planet yields the mid-conquest
state at elapsed 0, whatever the arriving ship count. -/
lemma startConquest_fresh (c : ℕ) (F : Owner) (n : ℕ) :
    (mkPlanet c Owner.neutral).startConquest F n = conqueringState c F 0 := by
  unfold Planet.startConquest
  rw [if_pos (show (mkPlanet c Owner.neutral).owner = Owner.neutral from rfl)]
  rfl

/-- One tick strictly below the conquest duration just advances the elapsed
time: generation skips neutral planets, the conquest timer does not fire, and
no battle is active. -/
lemma conquering_step (c : ℕ) (F : Owner) (e x : ℚ)
    (hx : e + x < NEUTRAL_TIME) :
    (conqueringState c F e).update x = conqueringState c F (e + x) := by
  unfold Planet.update
  have hg : (conqueringState c F e).updateShipGeneration x = conqueringState c F e := by
    unfold Planet.updateShipGeneration
    rw [if_pos (Or.inl (show (conqueringState c F e).owner = Owner.neutral from rfl))]
  rw [hg]
  have htm : (conqueringState c F e).conquestTimer.update x =
      ({ duration := NEUTRAL_TIME, elapsed := e + x, active := true }, false) := by
    unfold Timer.update
    rw [if_neg (by simp [conqueringState])]
    dsimp only [conqueringState]
    rw [if_neg (not_le.mpr hx)]
  have hcq : (conqueringState c F e).updateConquest x = conqueringState c F (e + x) := by
    unfold Planet.updateConquest
    rw [if_pos (show (conqueringState c F e).isBeingConquered = true from rfl)]
    rw [htm]
    rfl
  rw [hcq]
  unfold Planet.updateBattle
  rw [if_neg (by simp [conqueringState, mkPlanet])]

/-- The tick on which the accumulated conquest time reaches the duration
fires the timer and completes the conquest: the conqueror becomes owner, the
flags clear and the ships are untouched (0 for a neutral planet). -/
lemma conquering_final (c : ℕ) (F : Owner) (e x : ℚ)
    (hx : NEUTRAL_TIME ≤ e + x) :
    (conqueringState c F e).update x =
      { mkPlanet c Owner.neutral with
        owner := F
        conquestTimer := { duration := NEUTRAL_TIME, elapsed := e + x, active := false } } := by
  unfold Planet.update
  have hg : (conqueringState c F e).updateShipGeneration x = conqueringState c F e := by
    unfold Planet.updateShipGeneration
    rw [if_pos (Or.inl (show (conqueringState c F e).owner = Owner.neutral from rfl))]
  rw [hg]
  have htm : (conqueringState c F e).conquestTimer.update x =
      ({ duration := NEUTRAL_TIME, elapsed := e + x, active := false }, true) := by
    unfold Timer.update
    rw [if_neg (by simp [conqueringState])]
    dsimp only [conqueringState]
    rw [if_pos hx]
  have hcq : (conqueringState c F e).updateConquest x =
      { mkPlanet c Owner.neutral with
        owner := F
        conquestTimer := { duration := NEUTRAL_TIME, elapsed := e + x, active := false } } := by
    unfold Planet.updateConquest
    rw [if_pos (show (conqueringState c F e).isBeingConquered = true from rfl)]
    rw [htm]
    rfl
  rw [hcq]
  unfold Planet.updateBattle
  rw [if_neg (by simp [mkPlanet])]

/-- Running ticks whose total stays strictly below the conquest duration
keeps the planet mid-conquest with the elapsed sum accumulated exactly. -/
lemma conquering_run (c : ℕ) (F : Owner) (e : ℚ) (pre : List ℚ)
    (hnn : ∀ x ∈ pre, 0 ≤ x) (hlt : e + pre.sum < NEUTRAL_TIME) :
    applyTicks (conqueringState c F e) pre = conqueringState c F (e + pre.sum) := by
  induction pre generalizing e with
  | nil =>
    show conqueringState c F e = _
    rw [List.sum_nil, add_zero]
  | cons d rest ih =>
    have hd : 0 ≤ d := hnn d (List.mem_cons_self d rest)
    have hrest : ∀ x ∈ rest, 0 ≤ x := fun x hx => hnn x (List.mem_cons_of_mem d hx)
    have hsum0 : 0 ≤ rest.sum := List.sum_nonneg hrest
    rw [List.sum_cons] at hlt
    have hstep : e + d < NEUTRAL_TIME := by linarith
    show applyTicks ((conqueringState c F e).update d) rest = _
    rw [conquering_step c F e d hstep, ih (e + d) hrest (by linarith)]
    congr 1
    rw [List.sum_cons]
    ring

/-- C5: start a conquest of an Unclaimed node by faction `F` (with any fleet
size `n` — the count is not recorded); run any nonnegative tick deltas
staying below the configured duration, then the tick on which the total
elapsed reaches `NEUTRAL_TIME`: the node's owner is `F`, its unit count is
0, and it is no longer being conquered. -/
theorem C5_conquest (c : ℕ) (F : Owner) (n : ℕ) (pre : List ℚ) (d : ℚ)
    (hnn : ∀ x ∈ pre, 0 ≤ x)
    (hlt : pre.sum < NEUTRAL_TIME) (hge : NEUTRAL_TIME ≤ pre.sum + d) :
    (applyTicks ((mkPlanet c Owner.neutral).startConquest F n) (pre ++ [d])).owner = F ∧
    (applyTicks ((mkPlanet c Owner.neutral).startConquest F n) (pre ++ [d])).ships = 0 ∧
    (applyTicks ((mkPlanet c Owner.neutral).startConquest F n) (pre ++ [d])).isBeingConquered
      = false := by
  have happ : applyTicks ((mkPlanet c Owner.neutral).startConquest F n) (pre ++ [d])
      = (applyTicks ((mkPlanet c Owner.neutral).startConquest F n) pre).update d := by
    unfold applyTicks
    rw [List.foldl_append]
    rfl
  rw [happ, startConquest_fresh,
    conquering_run c F 0 pre hnn (by rw [zero_add]; exact hlt),
    conquering_final c F (0 + pre.sum) d (by rw [zero_add]; exact hge)]
  exact ⟨rfl, rfl, rfl⟩

/-- Witness for C5: conquering a fresh capacity-6 neutral planet with 1 ship
and ticking once by exactly the 3000 ms duration makes the AI its owner with
0 units. -/
theorem C5_conquest_witness :
    ((∀ x ∈ ([] : List ℚ), 0 ≤ x) ∧ ([] : List ℚ).sum < NEUTRAL_TIME ∧
       NEUTRAL_TIME ≤ ([] : List ℚ).sum + 3000) ∧
    (applyTicks ((mkPlanet 6 Owner.neutral).startConquest Owner.ai 1) [(3000 : ℚ)]).owner
      = Owner.ai ∧
    (applyTicks ((mkPlanet 6 Owner.neutral).startConquest Owner.ai 1) [(3000 : ℚ)]).ships
      = 0 := by
  have hnn : ∀ x ∈ ([] : List ℚ), 0 ≤ x := by intro x hx; cases hx
  have hlt : ([] : List ℚ).sum < NEUTRAL_TIME := by norm_num [NEUTRAL_TIME]
  have hge : NEUTRAL_TIME ≤ ([] : List ℚ).sum + 3000 := by norm_num [NEUTRAL_TIME]
  have h := C5_conquest 6 Owner.ai 1 [] 3000 hnn hlt hge
  exact ⟨⟨hnn, hlt, hge⟩, h.1, h.2.1⟩

/-- C7: every candidate action of the Decision Engine has a source with
strictly more than 1 ship, sends at most `source.ships - 1` units (a garrison
of 1 is kept), sends a strictly positive count, and executing the withdrawal
leaves the source with at least 1 ship — never a negative count. -/
theorem C7_ai_garrison (mine targets : List Planet) (a : Planet × Planet × ℕ)
    (ha : a ∈ generatePossibleActions mine targets) :
    1 < a.1.ships ∧ a.2.2 ≤ a.1.ships - 1 ∧ 0 < a.2.2 ∧
    1 ≤ ((a.1.removeShips a.2.2).1).ships := by
  unfold generatePossibleActions at ha
  rw [List.mem_flatMap] at ha
  obtain ⟨s, _, hmem⟩ := ha
  by_cases h1 : 1 < s.ships
  · rw [if_pos h1] at hmem
    rw [List.mem_filterMap] at hmem
    obtain ⟨t, _, heq⟩ := hmem
    dsimp only at heq
    by_cases h0 : 0 < calculateOptimalShipCount s t
    · rw [if_pos h0] at heq
      have hcap : calculateOptimalShipCount s t ≤ (s.ships : ℤ) - 1 := by
        unfold calculateOptimalShipCount
        dsimp only
        exact min_le_right _ _
      obtain ⟨hs1, hs2, hs3⟩ : s = a.1 ∧ t = a.2.1 ∧
          (calculateOptimalShipCount s t).toNat = a.2.2 := by
        cases heq
        exact ⟨rfl, rfl, rfl⟩
      subst hs1
      subst hs2
      refine ⟨h1, by omega, by omega, ?_⟩
      simp only [Planet.removeShips]
      omega
    · rw [if_neg h0] at heq
      cases heq
  · rw [if_neg h1] at hmem
    cases hmem

/-- Witness for C7: the candidate (send 1 ship to the neutral target) is in
the generated list, its source has more than 1 ship and it keeps the
garrison. -/
theorem C7_ai_garrison_witness :
    aiCandidate ∈ generatePossibleActions [aiSourcePlanet] [aiTargetPlanet] ∧
    1 < aiCandidate.1.ships ∧ aiCandidate.2.2 ≤ aiCandidate.1.ships - 1 := by
  have hcalc : calculateOptimalShipCount aiSourcePlanet aiTargetPlanet = 1 := by
    unfold calculateOptimalShipCount
    rw [if_pos (show aiTargetPlanet.owner = Owner.neutral from rfl)]
    dsimp only
    norm_num [aiSourcePlanet, mkPlanet]
  have hmem : aiCandidate ∈ generatePossibleActions [aiSourcePlanet] [aiTargetPlanet] := by
    unfold generatePossibleActions
    rw [List.mem_flatMap]
    refine ⟨aiSourcePlanet, List.mem_singleton.mpr rfl, ?_⟩
    rw [if_pos (show 1 < aiSourcePlanet.ships by norm_num [aiSourcePlanet, mkPlanet])]
    rw [List.mem_filterMap]
    refine ⟨aiTargetPlanet, List.mem_singleton.mpr rfl, ?_⟩
    dsimp only
    rw [hcalc]
    norm_num
    rfl
  have h := C7_ai_garrison [aiSourcePlanet] [aiTargetPlanet] aiCandidate hmem
  exact ⟨hmem, h.1, h.2.1⟩
